import Mathlib

set_option maxHeartbeats 1000000

/-
Shallow embedding of the git-lfs fsck command (src/commands/command_fsck.go).

The embedding models the fsck command as pure functions over an explicit
environment: the git scanner feeds, ref resolution, and the filesystem are
inputs; printed diagnostics, the exit code and the resulting filesystem are
outputs.  Process-terminating calls (Panic, ExitWithError, os.Exit after an
error) are modelled with an Except monad whose error carries the fatal
outcome.  The SHA-256 hex digest (crypto/sha256 plus encoding/hex in Go,
outside this repository) is abstracted as a function field of the
configuration, applied to the full byte content of a stored object.
-/

namespace GitLfsFsck

/-- A resolved git reference as produced by ref resolution; fsck only uses
the commit SHA. -/
structure GitRef where
  sha : String
deriving DecidableEq, Repr

/-- Mirrors lfs.WrappedPointer as consumed by command_fsck.go: the path name,
the LFS content hash (Oid), the declared size, the git blob SHA-1, and the
canonicality flag computed by the external scanner. -/
structure WrappedPointer where
  name : String
  oid : String
  size : Int
  sha1 : String
  canonical : Bool
deriving DecidableEq, Repr

/-- One callback invocation of the by-blob scanner feed: either a pointer
record (err == nil in the Go callback) or a scan error (err != nil). -/
inductive BlobScanItem where
  | ptr (p : WrappedPointer)
  | scanError (msg : String)
deriving DecidableEq, Repr

/-- One callback invocation of the by-tree scanner feed: a pointer record
(p != nil), a PointerScanError carrying the tree OID and path, or any other
scan error. -/
inductive TreeScanItem where
  | ptr (p : WrappedPointer)
  | pointerScanError (treeOid path : String)
  | scanError (msg : String)
deriving DecidableEq, Repr

/-- What the operating system does when fsck opens and reads a file at a
given path.  The constructors model the observable outcomes of os.Open and
io.Copy in fsckPointer: a readable file with its byte content, a file whose
open fails with a *os.PathError (for example permission denied), a file
whose open fails with an error that is not a *os.PathError, and a file that
opens but whose read fails. -/
inductive FileData where
  | content (data : List Nat)
  | unreadable (errString : String)
  | openOtherError (msg : String)
  | readFails (msg : String)
deriving DecidableEq, Repr

/-- The filesystem state: an association list from paths to file behaviour,
plus the set of directories that exist.  A path absent from the list does
not exist (os.Open yields a not-exist *os.PathError). -/
structure FS where
  files : List (String × FileData)
  dirs : List String
deriving DecidableEq, Repr

/-- Outcome of reading an opened file to the end (io.Copy in the source). -/
inductive ReadResult where
  | ok (data : List Nat)
  | ioError (msg : String)
deriving DecidableEq, Repr

/-- Outcome of os.Open, as discriminated by the source code: a *os.PathError
(carrying whether the underlying cause is that the path does not exist, an
environment fact the code itself never inspects, and the error string printed
as pErr.Err), a non-PathError open error, or a successful open together with
the subsequent read outcome. -/
inductive OpenOutcome where
  | pathError (notExist : Bool) (errString : String)
  | otherError (msg : String)
  | opened (r : ReadResult)
deriving DecidableEq, Repr

/-- Association-list lookup for the file map. -/
def findData : List (String × FileData) → String → Option FileData
  | [], _ => none
  | (k, v) :: rest, p => if p = k then some v else findData rest p

/-- Lookup of a path in the filesystem. -/
def lookupFile (fs : FS) (path : String) : Option FileData :=
  findData fs.files path

/-- Semantics of os.Open followed by io.Copy at a path, derived from the
filesystem state. -/
def osOpen (fs : FS) (path : String) : OpenOutcome :=
  match lookupFile fs path with
  | none => .pathError true "no such file or directory"
  | some (.content d) => .opened (.ok d)
  | some (.unreadable e) => .pathError false e
  | some (.openOtherError m) => .otherError m
  | some (.readFails m) => .opened (.ioError m)

/-- Removal of every binding of a path from the file map. -/
def removeFile : List (String × FileData) → String → List (String × FileData)
  | [], _ => []
  | (k, v) :: rest, p => if k = p then removeFile rest p else (k, v) :: removeFile rest p

/-- Overwriting insertion of a binding into the file map. -/
def setFile (l : List (String × FileData)) (p : String) (d : FileData) :
    List (String × FileData) :=
  (p, d) :: removeFile l p

/-- Semantics of os.Rename: fails when the source does not exist, otherwise
moves the file data from the source path to the destination path
(overwriting any destination). -/
def osRename (f : FS) (src dst : String) : Except String FS :=
  match findData f.files src with
  | none => .error ("rename " ++ src ++ " " ++ dst ++ ": no such file or directory")
  | some d => .ok { files := setFile (removeFile f.files src) dst d, dirs := f.dirs }

/-- Semantics of tools.MkdirAll: creates the directory when absent; a no-op
when it already exists. -/
def mkdirAll (f : FS) (dir : String) : FS :=
  if dir ∈ f.dirs then f else { f with dirs := dir :: f.dirs }

/-- Pieces of process configuration used by fsck: the object-store path
layout (cfg.Filesystem().ObjectPathname), the storage root
(cfg.LFSStorageDir), and the hex digest of the content-hash function that
keys the store (crypto/sha256 plus encoding/hex, abstracted). -/
structure Config where
  objectPathname : String → String
  lfsStorageDir : String
  sha256hex : List Nat → String

/-- The external collaborators of the command: ref resolution (git.CurrentRef
and git.ResolveRefs) and the five scanner entry points used by fsck.  Each
scan is the finite feed of callback invocations it delivers for the given
refs, paired with the error value the scan call itself returns. -/
structure ScanEnv where
  currentRef : Except String GitRef
  resolveRefs : List String → Except String (List GitRef)
  scanRef : String → List BlobScanItem × Option String
  scanRefRange : String → String → List BlobScanItem × Option String
  scanIndex : String → List BlobScanItem × Option String
  scanRefByTree : String → List TreeScanItem × Option String
  scanRefRangeByTree : String → String → List TreeScanItem × Option String

/-- A fatal termination of the run: Panic(err, ...) in a scanner callback,
or ExitWithError(err) at top level.  Both print the error and exit the
process with a non-zero status that is not part of the 0/1 contract. -/
inductive Fatal where
  | panicErr (msg : String)
  | exitWithError (msg : String)
deriving DecidableEq, Repr

/-- Mirrors the corruptPointer struct of the source. -/
structure corruptPointer where
  blobOid : String
  treeOid : String
  lfsOid : String
  path : String
  message : String
  kind : String
deriving DecidableEq, Repr

/-- Mirrors the String() method of corruptPointer. -/
def cpString (p : corruptPointer) : String := p.kind ++ ": " ++ p.message

/-- The corruptPointer value built for a non-canonical pointer record
(doFsckPointers, first branch). -/
def nonCanonicalCp (p : WrappedPointer) : corruptPointer :=
  { blobOid := p.sha1, treeOid := "", lfsOid := p.oid, path := "",
    message := "Pointer for " ++ p.oid ++ " (blob " ++ p.sha1 ++ ") was not canonical",
    kind := "nonCanonicalPointer" }

/-- The corruptPointer value built for a PointerScanError (doFsckPointers,
second branch); the %q verb of the source quotes the path. -/
def unexpectedGitObjectCp (treeOid path : String) : corruptPointer :=
  { blobOid := "", treeOid := treeOid, lfsOid := "", path := path,
    message := "\"" ++ path ++ "\" (treeish " ++ treeOid ++ ") should have been a pointer but was not",
    kind := "unexpectedGitObject" }

/-- Mirrors fsckPointer(name, oid, size): returns the pointerOk flag, the
error returned to the callback, and the diagnostic lines printed. -/
def fsckPointer (cfg : Config) (fs : FS) (name oid : String) (size : Int) :
    Bool × Option String × List String :=
  let path := cfg.objectPathname oid
  match osOpen fs path with
  | .pathError _ errString =>
    if size = 0 then (true, none, [])
    else (false, none,
      ["objects: openError: " ++ name ++ " (" ++ oid ++ ") could not be checked: " ++ errString])
  | .otherError m => (false, some m, [])
  | .opened (.ioError m) => (false, some m, [])
  | .opened (.ok d) =>
    if cfg.sha256hex d = oid then (true, none, [])
    else (false, none, ["objects: corruptObject: " ++ name ++ " (" ++ oid ++ ") is corrupt"])

/-- One invocation of the doFsckObjects scanner callback on an accumulator of
(corruptOids, printed lines): a scan error panics; otherwise fsckPointer is
consulted, a failing pointer has its oid appended, and a non-nil error from
fsckPointer (a read error) panics. -/
def fsckObjStep (cfg : Config) (fs : FS) (acc : List String × List String)
    (item : BlobScanItem) : Except Fatal (List String × List String) :=
  match item with
  | .scanError m => .error (.panicErr m)
  | .ptr p =>
    let r := fsckPointer cfg fs p.name p.oid p.size
    let acc1 := (if r.1 then acc.1 else acc.1 ++ [p.oid], acc.2 ++ r.2.2)
    match r.2.1 with
    | some m => .error (.panicErr m)
    | none => .ok acc1

/-- Sequential delivery of a by-blob feed to the doFsckObjects callback. -/
def runBlobFeed (cfg : Config) (fs : FS) :
    List String × List String → List BlobScanItem → Except Fatal (List String × List String)
  | acc, [] => .ok acc
  | acc, item :: rest =>
    match fsckObjStep cfg fs acc item with
    | .error e => .error e
    | .ok acc1 => runBlobFeed cfg fs acc1 rest

/-- Mirrors doFsckObjects(start, end, useIndex): scans the ref (or ref
range), then additionally the index when requested, and returns the
collected corrupt oids together with the printed lines.  A non-nil error
from a scan call is fatal (ExitWithError). -/
def doFsckObjects (cfg : Config) (env : ScanEnv) (fs : FS)
    (start end_ : String) (useIndex : Bool) :
    Except Fatal (List String × List String) :=
  let scan := if start == "" then env.scanRef end_ else env.scanRefRange start end_
  match runBlobFeed cfg fs ([], []) scan.1 with
  | .error e => .error e
  | .ok acc =>
    match scan.2 with
    | some e => .error (.exitWithError e)
    | none =>
      if useIndex then
        let idx := env.scanIndex "HEAD"
        match runBlobFeed cfg fs acc idx.1 with
        | .error e => .error e
        | .ok acc2 =>
          match idx.2 with
          | some e => .error (.exitWithError e)
          | none => .ok acc2
      else .ok acc

/-- One invocation of the doFsckPointers scanner callback on an accumulator
of (corruptPointers, printed lines): a non-canonical pointer or a
PointerScanError is classified, appended and printed immediately; any other
scan error panics. -/
def fsckPtrStep (acc : List corruptPointer × List String) (item : TreeScanItem) :
    Except Fatal (List corruptPointer × List String) :=
  match item with
  | .ptr p =>
    if !p.canonical then
      let cp := nonCanonicalCp p
      .ok (acc.1 ++ [cp], acc.2 ++ ["pointer: " ++ cpString cp])
    else .ok acc
  | .pointerScanError treeOid path =>
    let cp := unexpectedGitObjectCp treeOid path
    .ok (acc.1 ++ [cp], acc.2 ++ ["pointer: " ++ cpString cp])
  | .scanError m => .error (.panicErr m)

/-- Sequential delivery of a by-tree feed to the doFsckPointers callback. -/
def runTreeFeed :
    List corruptPointer × List String → List TreeScanItem →
    Except Fatal (List corruptPointer × List String)
  | acc, [] => .ok acc
  | acc, item :: rest =>
    match fsckPtrStep acc item with
    | .error e => .error e
    | .ok acc1 => runTreeFeed acc1 rest

/-- Mirrors doFsckPointers(start, end): tree-scans the ref (or ref range)
only; the index is never scanned by this pass. -/
def doFsckPointers (env : ScanEnv) (start end_ : String) :
    Except Fatal (List corruptPointer × List String) :=
  let scan := if start == "" then env.scanRefByTree end_ else env.scanRefRangeByTree start end_
  match runTreeFeed ([], []) scan.1 with
  | .error e => .error e
  | .ok acc =>
    match scan.2 with
    | some e => .error (.exitWithError e)
    | none => .ok acc

/-- Model of strings.SplitN(s, sep, 2) on character lists: searches for the
first occurrence of the separator and splits there. -/
def findSep (sep : List Char) : List Char → Option (List Char × List Char)
  | [] => none
  | c :: rest =>
    if List.isPrefixOf sep (c :: rest) then some ([], (c :: rest).drop sep.length)
    else
      match findSep sep rest with
      | some (pre, post) => some (c :: pre, post)
      | none => none

/-- Model of strings.SplitN(s, sep, 2) for a non-empty separator: one or two
pieces, splitting at the first occurrence of the separator. -/
def splitN2 (s sep : String) : List String :=
  match findSep sep.data s.data with
  | none => [s]
  | some (pre, post) => [String.mk pre, String.mk post]

/-- The scan range computed by the argument switch of fsckCommand. -/
structure ScanRange where
  useIndex : Bool
  start : String
  end_ : String
deriving DecidableEq, Repr

/-- Mirrors the argument switch of fsckCommand (lines 49 to 73): zero
arguments use the index and the current ref; one argument is split on the
first occurrence of two dots and resolved; two or more arguments leave the
defaults.  A failed resolution is fatal (ExitWithError); indexing refs[0] on
an empty resolution is the runtime panic of the source. -/
def resolveScanRange (env : ScanEnv) (args : List String) : Except Fatal ScanRange :=
  match args with
  | [] =>
    match env.currentRef with
    | .error e => .error (.exitWithError e)
    | .ok ref => .ok { useIndex := true, start := "", end_ := ref.sha }
  | [arg] =>
    match env.resolveRefs (splitN2 arg "..") with
    | .error e => .error (.exitWithError e)
    | .ok refs =>
      match refs with
      | [r0, r1] => .ok { useIndex := false, start := r0.sha, end_ := r1.sha }
      | r0 :: _ => .ok { useIndex := false, start := "", end_ := r0.sha }
      | [] => .error (.panicErr "index out of range")
  | _ => .ok { useIndex := false, start := "", end_ := "HEAD" }

/-- The command line flags of fsck. -/
structure Flags where
  dryRun : Bool
  objects : Bool
  pointers : Bool
deriving DecidableEq, Repr

/-- Mirrors the default-both policy (lines 75 to 78): whether the object pass
runs. -/
def effObjects (flags : Flags) : Bool :=
  if !flags.pointers && !flags.objects then true else flags.objects

/-- Mirrors the default-both policy (lines 75 to 78): whether the pointer
pass runs. -/
def effPointers (flags : Flags) : Bool :=
  if !flags.pointers && !flags.objects then true else flags.pointers

/-- The relocation loop of fsckCommand (lines 108 to 113): renames each
corrupt oid from its store path into the quarantine directory; any rename
failure is fatal (ExitWithError). -/
def runRenames (cfg : Config) (badDir : String) : FS → List String → Except Fatal FS
  | f, [] => .ok f
  | f, oid :: rest =>
    match osRename f (cfg.objectPathname oid) (badDir ++ "/" ++ oid) with
    | .error e => .error (.exitWithError e)
    | .ok f1 => runRenames cfg badDir f1 rest

/-- Observable outcome of a completed (non-fatal) run: the process exit
code, the lines printed, and the final filesystem. -/
structure CmdResult where
  exitCode : Nat
  printed : List String
  fs : FS
deriving DecidableEq, Repr

/-- Mirrors fsckCommand (lines 45 to 115): resolve the scan range, run the
requested passes, decide overall OK, and either print the success line and
exit 0, exit 1 without mutation (dry run or pointer-only corruption), or
quarantine every corrupt object and exit 1. -/
def fsckCommand (cfg : Config) (env : ScanEnv) (fs : FS) (flags : Flags)
    (args : List String) : Except Fatal CmdResult :=
  match resolveScanRange env args with
  | .error e => .error e
  | .ok sr =>
    match (if effObjects flags then doFsckObjects cfg env fs sr.start sr.end_ sr.useIndex
           else .ok ([], [])) with
    | .error e => .error e
    | .ok (corruptOids, out1) =>
      match (if effPointers flags then doFsckPointers env sr.start sr.end_
             else .ok ([], [])) with
      | .error e => .error e
      | .ok (corruptPointers, out2) =>
        let ok := (!effObjects flags || corruptOids.isEmpty) &&
                  (!effPointers flags || corruptPointers.isEmpty)
        if ok then
          .ok { exitCode := 0, printed := out1 ++ out2 ++ ["Git LFS fsck OK"], fs := fs }
        else if flags.dryRun || corruptOids.isEmpty then
          .ok { exitCode := 1, printed := out1 ++ out2, fs := fs }
        else
          let badDir := cfg.lfsStorageDir ++ "/bad"
          match runRenames cfg badDir (mkdirAll fs badDir) corruptOids with
          | .error e => .error e
          | .ok fs2 =>
            .ok { exitCode := 1,
                  printed := out1 ++ out2 ++
                    ["objects: repair: moving corrupt objects to " ++ badDir],
                  fs := fs2 }

/-- The oids of the pointer records of a by-blob feed, in order. -/
def recOids (feed : List BlobScanItem) : List String :=
  feed.filterMap (fun item =>
    match item with
    | .ptr p => some p.oid
    | .scanError _ => none)

/-! Concrete fixtures used to exercise the development on closed inputs. -/

/-- A concrete configuration: a flat object store under objects/, storage
root lfs, and a digest function mapping the byte list [1] to the digest a
and every other content to x. -/
def cfgC : Config := {
  objectPathname := fun oid => "objects/" ++ oid
  lfsStorageDir := "lfs"
  sha256hex := fun d => if d = [1] then "a" else "x" }

/-- An empty filesystem. -/
def fsEmpty : FS := { files := [], dirs := [] }

/-- A store holding an intact object a (content [1]) and a corrupt object b
(content [2], whose digest x differs from b). -/
def fsStore : FS := { files := [("objects/a", .content [1]), ("objects/b", .content [2])], dirs := [] }

/-- A store whose single object file exists but cannot be opened: os.Open
fails with a *os.PathError whose cause is not nonexistence. -/
def fsUnreadable : FS :=
  { files := [("objects/a", .unreadable "permission denied")], dirs := [] }

/-- A store whose single object file opens but fails mid-read. -/
def fsReadErr : FS :=
  { files := [("objects/a", .readFails "input output error")], dirs := [] }

/-- The default flag set: no flag given, so both passes run. -/
def flagsDefault : Flags := { dryRun := false, objects := false, pointers := false }

/-- The flag set for a dry run. -/
def flagsDry : Flags := { dryRun := true, objects := false, pointers := false }

/-- A pointer record declaring object a with size 1. -/
def pA : WrappedPointer := { name := "f", oid := "a", size := 1, sha1 := "s1", canonical := true }

/-- A pointer record declaring object b with size 1. -/
def pB : WrappedPointer := { name := "g", oid := "b", size := 1, sha1 := "s2", canonical := true }

/-- A non-canonical pointer record. -/
def pNC : WrappedPointer := { name := "h", oid := "c", size := 1, sha1 := "s3", canonical := false }

/-- A pointer record declaring object a with size 0. -/
def pA0 : WrappedPointer := { name := "f", oid := "a", size := 0, sha1 := "", canonical := true }

/-- A pointer record declaring the absent object z with size 0. -/
def pZ0 : WrappedPointer := { name := "f", oid := "z", size := 0, sha1 := "", canonical := true }

/-- A pointer record declaring the absent object z with size 1. -/
def pZ1 : WrappedPointer := { name := "f", oid := "z", size := 1, sha1 := "", canonical := true }

/-- An environment whose scans all come back clean. -/
def envClean : ScanEnv := {
  currentRef := .ok { sha := "r" }
  resolveRefs := fun ps => .ok (ps.map (fun s => { sha := s }))
  scanRef := fun _ => ([], none)
  scanRefRange := fun _ _ => ([], none)
  scanIndex := fun _ => ([], none)
  scanRefByTree := fun _ => ([], none)
  scanRefRangeByTree := fun _ _ => ([], none) }

/-- An environment whose ref resolution fails. -/
def envErr : ScanEnv := {
  currentRef := .error "bad ref"
  resolveRefs := fun _ => .error "bad ref"
  scanRef := fun _ => ([], none)
  scanRefRange := fun _ _ => ([], none)
  scanIndex := fun _ => ([], none)
  scanRefByTree := fun _ => ([], none)
  scanRefRangeByTree := fun _ _ => ([], none) }

/-- An environment whose by-blob ref scan yields the single record pB. -/
def envB : ScanEnv := {
  currentRef := .ok { sha := "r" }
  resolveRefs := fun ps => .ok (ps.map (fun s => { sha := s }))
  scanRef := fun _ => ([.ptr pB], none)
  scanRefRange := fun _ _ => ([], none)
  scanIndex := fun _ => ([], none)
  scanRefByTree := fun _ => ([], none)
  scanRefRangeByTree := fun _ _ => ([], none) }

/-- An environment whose by-blob ref scan yields the record pA, whose object
file fails mid-read. -/
def envC4 : ScanEnv := {
  currentRef := .ok { sha := "r" }
  resolveRefs := fun ps => .ok (ps.map (fun s => { sha := s }))
  scanRef := fun _ => ([.ptr pA], none)
  scanRefRange := fun _ _ => ([], none)
  scanIndex := fun _ => ([], none)
  scanRefByTree := fun _ => ([], none)
  scanRefRangeByTree := fun _ _ => ([], none) }

/-- An environment whose by-blob ref scan yields the same corrupt record
twice. -/
def envDup : ScanEnv := {
  currentRef := .ok { sha := "r" }
  resolveRefs := fun ps => .ok (ps.map (fun s => { sha := s }))
  scanRef := fun _ => ([.ptr pB, .ptr pB], none)
  scanRefRange := fun _ _ => ([], none)
  scanIndex := fun _ => ([], none)
  scanRefByTree := fun _ => ([], none)
  scanRefRangeByTree := fun _ _ => ([], none) }

/-- An environment that is clean except that the index holds a non-canonical
pointer and an unexpected git object. -/
def envIdxNC : ScanEnv := {
  currentRef := .ok { sha := "r" }
  resolveRefs := fun ps => .ok (ps.map (fun s => { sha := s }))
  scanRef := fun _ => ([], none)
  scanRefRange := fun _ _ => ([], none)
  scanIndex := fun _ => ([.ptr pNC], none)
  scanRefByTree := fun _ => ([], none)
  scanRefRangeByTree := fun _ _ => ([], none) }

/-- The store fsStore after object b has been quarantined. -/
def fs2C : FS :=
  { files := [("lfs/bad/b", .content [2]), ("objects/a", .content [1])], dirs := ["lfs/bad"] }

/-! Helper lemmas about the filesystem model. -/

theorem findData_removeFile (l : List (String × FileData)) (p q : String) :
    findData (removeFile l p) q = if q = p then none else findData l q := by
  induction l with
  | nil => simp [removeFile, findData]
  | cons kv rest ih =>
    obtain ⟨k, v⟩ := kv
    by_cases hk : k = p <;> by_cases hq : q = k <;>
      simp [removeFile, findData, hk, hq, ih] <;> simp_all

theorem findData_setFile (l : List (String × FileData)) (p q : String) (d : FileData) :
    findData (setFile l p d) q = if q = p then some d else findData l q := by
  simp only [setFile, findData, findData_removeFile]
  by_cases hq : q = p <;> simp [hq]

theorem osRename_lookup (f f' : FS) (src dst q : String)
    (h : osRename f src dst = .ok f') :
    lookupFile f' q =
      if q = dst then lookupFile f src
      else if q = src then none else lookupFile f q := by
  unfold osRename at h
  cases hf : findData f.files src with
  | none => rw [hf] at h; exact absurd h (by simp)
  | some d =>
    rw [hf] at h
    injection h with h
    subst h
    simp only [lookupFile, findData_setFile, findData_removeFile, hf]

theorem osRename_dirs (f f' : FS) (src dst : String)
    (h : osRename f src dst = .ok f') : f'.dirs = f.dirs := by
  unfold osRename at h
  cases hf : findData f.files src with
  | none => rw [hf] at h; exact absurd h (by simp)
  | some d => rw [hf] at h; injection h with h; subst h; rfl

theorem runRenames_dirs (cfg : Config) (badDir : String) :
    ∀ (oids : List String) (f f' : FS),
      runRenames cfg badDir f oids = .ok f' → f'.dirs = f.dirs := by
  intro oids
  induction oids with
  | nil => intro f f' h; injection h with h; subst h; rfl
  | cons o rest ih =>
    intro f f' h
    unfold runRenames at h
    cases hr : osRename f (cfg.objectPathname o) (badDir ++ "/" ++ o) with
    | error e => rw [hr] at h; exact absurd h (by simp)
    | ok f1 =>
      rw [hr] at h
      rw [ih f1 f' h, osRename_dirs f f1 _ _ hr]

theorem runRenames_preserve (cfg : Config) (badDir : String) :
    ∀ (oids : List String) (f f' : FS) (p : String),
      runRenames cfg badDir f oids = .ok f' →
      (∀ o ∈ oids, p ≠ cfg.objectPathname o ∧ p ≠ badDir ++ "/" ++ o) →
      lookupFile f' p = lookupFile f p := by
  intro oids
  induction oids with
  | nil => intro f f' p h _; injection h with h; subst h; rfl
  | cons o rest ih =>
    intro f f' p h hp
    unfold runRenames at h
    cases hr : osRename f (cfg.objectPathname o) (badDir ++ "/" ++ o) with
    | error e => rw [hr] at h; exact absurd h (by simp)
    | ok f1 =>
      rw [hr] at h
      have hpo := hp o (List.mem_cons_self o rest)
      have step := osRename_lookup f f1 _ _ p hr
      rw [if_neg hpo.2, if_neg hpo.1] at step
      rw [ih f1 f' p h (fun o2 ho2 => hp o2 (List.mem_cons_of_mem o ho2)), step]

theorem strAppendCancel (s t u : String) (h : s ++ t = s ++ u) : t = u := by
  have hd : (s ++ t).data = (s ++ u).data := by rw [h]
  simp only [String.data_append] at hd
  exact String.ext (List.append_cancel_left hd)

theorem runRenames_complete (cfg : Config) (badDir : String) :
    ∀ (oids : List String) (f f' : FS),
      oids.Nodup →
      (∀ o ∈ oids, ∀ o2 ∈ oids, cfg.objectPathname o = cfg.objectPathname o2 → o = o2) →
      (∀ o ∈ oids, ∀ o2 ∈ oids, badDir ++ "/" ++ o ≠ cfg.objectPathname o2) →
      runRenames cfg badDir f oids = .ok f' →
      ∀ o ∈ oids, lookupFile f' (cfg.objectPathname o) = none ∧
        (lookupFile f' (badDir ++ "/" ++ o)).isSome := by
  intro oids
  induction oids with
  | nil => intro f f' _ _ _ _ o ho; exact absurd ho (List.not_mem_nil o)
  | cons o rest ih =>
    intro f f' hnodup hinj hdisj h o2 ho2
    unfold runRenames at h
    cases hr : osRename f (cfg.objectPathname o) (badDir ++ "/" ++ o) with
    | error e => rw [hr] at h; exact absurd h (by simp)
    | ok f1 =>
      rw [hr] at h
      have honotmem : o ∉ rest := (List.nodup_cons.mp hnodup).1
      have hmemself : o ∈ o :: rest := List.mem_cons_self o rest
      rcases List.mem_cons.mp ho2 with heq | hmem
      · subst heq
        -- the object renamed by this step: its source is gone and its
        -- quarantine copy is present, and the remaining renames touch
        -- neither path
        have hsrc : ∀ o3 ∈ rest, cfg.objectPathname o2 ≠ cfg.objectPathname o3 ∧
            cfg.objectPathname o2 ≠ badDir ++ "/" ++ o3 := by
          intro o3 ho3
          constructor
          · intro hcontra
            exact honotmem (hinj o2 hmemself o3 (List.mem_cons_of_mem o2 ho3) hcontra ▸ ho3)
          · intro hcontra
            exact hdisj o3 (List.mem_cons_of_mem o2 ho3) o2 hmemself hcontra.symm
        have hdst : ∀ o3 ∈ rest, badDir ++ "/" ++ o2 ≠ cfg.objectPathname o3 ∧
            badDir ++ "/" ++ o2 ≠ badDir ++ "/" ++ o3 := by
          intro o3 ho3
          constructor
          · exact hdisj o2 hmemself o3 (List.mem_cons_of_mem o2 ho3)
          · intro hcontra
            have : o2 = o3 := strAppendCancel (badDir ++ "/") o2 o3 (by
              simpa [String.append_assoc] using hcontra)
            exact honotmem (this ▸ ho3)
        have hs := runRenames_preserve cfg badDir rest f1 f' (cfg.objectPathname o2) h hsrc
        have hddb := runRenames_preserve cfg badDir rest f1 f' (badDir ++ "/" ++ o2) h hdst
        have hself : cfg.objectPathname o2 ≠ badDir ++ "/" ++ o2 :=
          fun hcontra => hdisj o2 hmemself o2 hmemself hcontra.symm
        have step := osRename_lookup f f1 _ _ (cfg.objectPathname o2) hr
        rw [if_neg hself, if_pos rfl] at step
        have stepd := osRename_lookup f f1 _ _ (badDir ++ "/" ++ o2) hr
        rw [if_pos rfl] at stepd
        refine ⟨by rw [hs, step], ?_⟩
        rw [hddb, stepd]
        unfold osRename at hr
        cases hf : findData f.files (cfg.objectPathname o2) with
        | none => rw [hf] at hr; exact absurd hr (by simp)
        | some d => simp [lookupFile, hf]
      · -- an object renamed later: the induction hypothesis applies
        exact ih f1 f' (List.nodup_cons.mp hnodup).2
          (fun a ha b hb => hinj a (List.mem_cons_of_mem o ha) b (List.mem_cons_of_mem o hb))
          (fun a ha b hb => hdisj a (List.mem_cons_of_mem o ha) b (List.mem_cons_of_mem o hb))
          h o2 hmem

theorem mem_dirs_mkdirAll (f : FS) (dir : String) : dir ∈ (mkdirAll f dir).dirs := by
  unfold mkdirAll
  by_cases hd : dir ∈ f.dirs <;> simp [hd]

/-! Helper lemmas about the verification feeds. -/

theorem fsckPointer_shape (cfg : Config) (fs : FS) (name oid : String) (size : Int)
    (b : Bool) (e : Option String) (out : List String)
    (h : fsckPointer cfg fs name oid size = (b, e, out)) :
    out.length ≤ 1 ∧ (b = true → out = []) := by
  simp only [fsckPointer] at h
  cases ho : osOpen fs (cfg.objectPathname oid) with
  | pathError ne es =>
    simp only [ho] at h
    by_cases hs : size = 0
    · rw [if_pos hs] at h
      simp only [Prod.mk.injEq] at h
      obtain ⟨hb, he, hout⟩ := h
      subst hb; subst hout; simp
    · rw [if_neg hs] at h
      simp only [Prod.mk.injEq] at h
      obtain ⟨hb, he, hout⟩ := h
      subst hb; subst hout; simp
  | otherError m =>
    simp only [ho] at h
    simp only [Prod.mk.injEq] at h
    obtain ⟨hb, he, hout⟩ := h
    subst hb; subst hout; simp
  | opened r =>
    cases r with
    | ioError m =>
      simp only [ho] at h
      simp only [Prod.mk.injEq] at h
      obtain ⟨hb, he, hout⟩ := h
      subst hb; subst hout; simp
    | ok d =>
      simp only [ho] at h
      by_cases hh : cfg.sha256hex d = oid
      · rw [if_pos hh] at h
        simp only [Prod.mk.injEq] at h
        obtain ⟨hb, he, hout⟩ := h
        subst hb; subst hout; simp
      · rw [if_neg hh] at h
        simp only [Prod.mk.injEq] at h
        obtain ⟨hb, he, hout⟩ := h
        subst hb; subst hout; simp

theorem fsckObjStep_ptr (cfg : Config) (fs : FS) (acc : List String × List String)
    (p : WrappedPointer) (b : Bool) (e : Option String) (out : List String)
    (hfp : fsckPointer cfg fs p.name p.oid p.size = (b, e, out)) :
    fsckObjStep cfg fs acc (.ptr p) =
      match e with
      | some m => .error (.panicErr m)
      | none => .ok (if b then acc.1 else acc.1 ++ [p.oid], acc.2 ++ out) := by
  simp only [fsckObjStep, hfp]
  cases e <;> rfl

theorem recOids_cons_ptr (p : WrappedPointer) (rest : List BlobScanItem) :
    recOids (.ptr p :: rest) = p.oid :: recOids rest := by
  simp [recOids]

theorem recOids_cons_scanError (m : String) (rest : List BlobScanItem) :
    recOids (.scanError m :: rest) = recOids rest := by
  simp [recOids]

theorem runBlobFeed_decomp (cfg : Config) (fs : FS) :
    ∀ (feed : List BlobScanItem) (acc res : List String × List String),
      runBlobFeed cfg fs acc feed = .ok res →
      ∃ ex ey, res.1 = acc.1 ++ ex ∧ res.2 = acc.2 ++ ey ∧
        ex.Sublist (recOids feed) ∧ ey.length ≤ ex.length := by
  intro feed
  induction feed with
  | nil =>
    intro acc res h
    injection h with h
    subst h
    exact ⟨[], [], by simp, by simp, by simp [recOids], by simp⟩
  | cons item rest ih =>
    intro acc res h
    unfold runBlobFeed at h
    cases hstep : fsckObjStep cfg fs acc item with
    | error e => rw [hstep] at h; exact absurd h (by simp)
    | ok acc1 =>
      rw [hstep] at h
      cases item with
      | scanError m => simp [fsckObjStep] at hstep
      | ptr p =>
        rcases hfp : fsckPointer cfg fs p.name p.oid p.size with ⟨b, e, out⟩
        rw [fsckObjStep_ptr cfg fs acc p b e out hfp] at hstep
        cases e with
        | some m => simp at hstep
        | none =>
          injection hstep with hstep
          subst hstep
          obtain ⟨hlen, hok⟩ := fsckPointer_shape cfg fs p.name p.oid p.size b none out hfp
          obtain ⟨ex1, ey1, h1, h2, h3, h4⟩ := ih _ res h
          cases b with
          | true =>
            rw [hok rfl] at h2
            refine ⟨ex1, ey1, ?_, ?_,
              by rw [recOids_cons_ptr]; exact h3.cons p.oid, h4⟩
            · simpa using h1
            · simpa using h2
          | false =>
            refine ⟨p.oid :: ex1, out ++ ey1, ?_, ?_,
              by rw [recOids_cons_ptr]; exact h3.cons₂ p.oid, ?_⟩
            · simpa using h1
            · simpa using h2
            · simp only [List.length_append, List.length_cons]
              omega

theorem runBlobFeed_append (cfg : Config) (fs : FS) :
    ∀ (pre post : List BlobScanItem) (acc : List String × List String),
      runBlobFeed cfg fs acc (pre ++ post) =
        match runBlobFeed cfg fs acc pre with
        | .error e => .error e
        | .ok acc1 => runBlobFeed cfg fs acc1 post := by
  intro pre
  induction pre with
  | nil => intro post acc; rfl
  | cons item rest ih =>
    intro post acc
    cases hstep : fsckObjStep cfg fs acc item with
    | error e => simp [runBlobFeed, hstep]
    | ok acc1 => simp [runBlobFeed, hstep, ih]

theorem runTreeFeed_decomp :
    ∀ (feed : List TreeScanItem) (acc res : List corruptPointer × List String),
      runTreeFeed acc feed = .ok res →
      ∃ ex ey, res.1 = acc.1 ++ ex ∧ res.2 = acc.2 ++ ey ∧ ey.length ≤ ex.length := by
  intro feed
  induction feed with
  | nil =>
    intro acc res h
    injection h with h
    subst h
    exact ⟨[], [], by simp, by simp, by simp⟩
  | cons item rest ih =>
    intro acc res h
    unfold runTreeFeed at h
    cases hstep : fsckPtrStep acc item with
    | error e => rw [hstep] at h; exact absurd h (by simp)
    | ok acc1 =>
      rw [hstep] at h
      obtain ⟨ex1, ey1, h1, h2, h3⟩ := ih acc1 res h
      cases item with
      | ptr p =>
        by_cases hc : p.canonical
        · refine ⟨ex1, ey1, ?_, ?_, h3⟩ <;>
            · simp only [fsckPtrStep, hc] at hstep
              simp at hstep
              subst hstep
              assumption
        · simp only [fsckPtrStep, Bool.not_eq_true] at hstep
          rw [if_pos (by simp [Bool.eq_false_iff.mpr hc])] at hstep
          injection hstep with hstep
          refine ⟨nonCanonicalCp p :: ex1, ("pointer: " ++ cpString (nonCanonicalCp p)) :: ey1,
            ?_, ?_, by simp [h3]⟩
          · rw [h1, ← hstep]; simp
          · rw [h2, ← hstep]; simp
      | pointerScanError t pa =>
        simp only [fsckPtrStep] at hstep
        injection hstep with hstep
        refine ⟨unexpectedGitObjectCp t pa :: ex1,
          ("pointer: " ++ cpString (unexpectedGitObjectCp t pa)) :: ey1,
          ?_, ?_, by simp [h3]⟩
        · rw [h1, ← hstep]; simp
        · rw [h2, ← hstep]; simp
      | scanError m => simp [fsckPtrStep] at hstep

theorem doFsckObjects_decomp (cfg : Config) (env : ScanEnv) (fs : FS)
    (start end_ : String) (useIndex : Bool) (oids out : List String)
    (h : doFsckObjects cfg env fs start end_ useIndex = .ok (oids, out)) :
    oids.Sublist
      (recOids (if start == "" then env.scanRef end_ else env.scanRefRange start end_).1 ++
        (if useIndex then recOids (env.scanIndex "HEAD").1 else [])) ∧
    out.length ≤ oids.length := by
  simp only [doFsckObjects] at h
  cases h1 : runBlobFeed cfg fs ([], [])
      (if start == "" then env.scanRef end_ else env.scanRefRange start end_).1 with
  | error e => rw [h1] at h; simp at h
  | ok acc =>
    simp only [h1] at h
    cases h2 : (if start == "" then env.scanRef end_ else env.scanRefRange start end_).2 with
    | some e => rw [h2] at h; simp at h
    | none =>
      simp only [h2] at h
      obtain ⟨ex1, ey1, d1, d2, d3, d4⟩ := runBlobFeed_decomp cfg fs _ _ _ h1
      simp only [List.nil_append] at d1 d2
      cases useIndex with
      | false =>
        rw [if_neg Bool.false_ne_true] at h
        injection h with h
        subst h
        have hids : oids = ex1 := d1
        have hout : out = ey1 := d2
        rw [if_neg Bool.false_ne_true, List.append_nil, hids, hout]
        exact ⟨d3, d4⟩
      | true =>
        rw [if_pos rfl] at h
        cases h3 : runBlobFeed cfg fs acc (env.scanIndex "HEAD").1 with
        | error e => rw [h3] at h; simp at h
        | ok acc2 =>
          simp only [h3] at h
          cases h4 : (env.scanIndex "HEAD").2 with
          | some e => rw [h4] at h; simp at h
          | none =>
            simp only [h4] at h
            injection h with h
            subst h
            obtain ⟨ex2, ey2, e1, e2, e3, e4⟩ := runBlobFeed_decomp cfg fs _ _ _ h3
            have hids : oids = acc.1 ++ ex2 := e1
            have hout : out = acc.2 ++ ey2 := e2
            rw [if_pos rfl, hids, hout, d1, d2]
            constructor
            · exact List.Sublist.append d3 e3
            · simp only [List.length_append]
              omega

theorem doFsckObjects_empty_out (cfg : Config) (env : ScanEnv) (fs : FS)
    (start end_ : String) (useIndex : Bool) (out : List String)
    (h : doFsckObjects cfg env fs start end_ useIndex = .ok ([], out)) : out = [] := by
  have := (doFsckObjects_decomp cfg env fs start end_ useIndex [] out h).2
  simpa using List.eq_nil_of_length_eq_zero (Nat.le_zero.mp (by simpa using this))

theorem doFsckPointers_empty_out (env : ScanEnv) (start end_ : String) (out : List String)
    (h : doFsckPointers env start end_ = .ok ([], out)) : out = [] := by
  simp only [doFsckPointers] at h
  cases h1 : runTreeFeed ([], [])
      (if start == "" then env.scanRefByTree end_ else env.scanRefRangeByTree start end_).1 with
  | error e => rw [h1] at h; simp at h
  | ok acc =>
    simp only [h1] at h
    cases h2 : (if start == "" then env.scanRefByTree end_
        else env.scanRefRangeByTree start end_).2 with
    | some e => rw [h2] at h; simp at h
    | none =>
      simp only [h2] at h
      injection h with h
      subst h
      obtain ⟨ex, ey, d1, d2, d3⟩ := runTreeFeed_decomp _ _ _ h1
      simp only [List.nil_append] at d1 d2
      have hex : ([] : List corruptPointer) = ex := d1
      have hey : out = ey := d2
      rw [← hex] at d3
      have : ey.length = 0 := by simpa using d3
      rw [hey]
      exact List.eq_nil_of_length_eq_zero this

end GitLfsFsck

namespace GitLfsFsck

/-! Claim theorems. -/

/-- C2, counterexample: the claim says an open failure is classified OK only
when the path does not exist and the declared size is 0, and that an open
failure for any other reason is classified openError.  The code, however,
only tests whether the open error is a *os.PathError: here the object file
exists but is unreadable (the open fails with a path error whose cause is
not nonexistence), the declared size is 0, and fsckPointer still classifies
the object OK with no diagnostic and no corrupt-set entry. -/
theorem C2_counterexample :
    osOpen fsUnreadable (cfgC.objectPathname "a") = .pathError false "permission denied" ∧
    fsckPointer cfgC fsUnreadable "f" "a" 0 = (true, none, []) ∧
    pA0.size = 0 ∧
    fsckObjStep cfgC fsUnreadable ([], []) (.ptr pA0) = .ok ([], []) :=
  ⟨rfl, rfl, rfl, rfl⟩

/-- C2 (amended): if opening the stored object fails with a path error and
the declared byteSize is 0, the object is classified OK regardless of the
reason for the failure; if it fails with a path error and byteSize is not 0,
the object is classified openError, a diagnostic is printed, its content
hash is added to the corrupt set, and the scan continues (the step returns
normally rather than aborting). -/
theorem C2_open_error_amended (cfg : Config) (fs : FS) (acc : List String × List String)
    (p : WrappedPointer) (ne : Bool) (es : String)
    (h : osOpen fs (cfg.objectPathname p.oid) = .pathError ne es) :
    (p.size = 0 → fsckObjStep cfg fs acc (.ptr p) = .ok acc) ∧
    (p.size ≠ 0 → fsckObjStep cfg fs acc (.ptr p) =
      .ok (acc.1 ++ [p.oid],
        acc.2 ++ ["objects: openError: " ++ p.name ++ " (" ++ p.oid ++
          ") could not be checked: " ++ es])) := by
  constructor
  · intro hs
    have hfp : fsckPointer cfg fs p.name p.oid p.size = (true, none, []) := by
      simp only [fsckPointer, h]
      rw [if_pos hs]
    rw [fsckObjStep_ptr cfg fs acc p true none [] hfp]
    simp
  · intro hs
    have hfp : fsckPointer cfg fs p.name p.oid p.size =
        (false, none, ["objects: openError: " ++ p.name ++ " (" ++ p.oid ++
          ") could not be checked: " ++ es]) := by
      simp only [fsckPointer, h]
      rw [if_neg hs]
    rw [fsckObjStep_ptr cfg fs acc p false none _ hfp]
    simp

/-- C2 (amended), witness: on a concrete empty store, a record of size 0
whose object file is missing is classified OK, and a record of size 1 whose
object file is missing is classified openError, printed, and added to the
corrupt set while the run continues. -/
theorem C2_open_error_amended_witness :
    fsckObjStep cfgC fsEmpty ([], []) (.ptr pZ0) = .ok ([], []) ∧
    fsckObjStep cfgC fsEmpty ([], []) (.ptr pZ1) =
      .ok (["z"], ["objects: openError: f (z) could not be checked: no such file or directory"]) :=
  ⟨(C2_open_error_amended cfgC fsEmpty ([], []) pZ0
      true "no such file or directory" rfl).1 rfl,
   (C2_open_error_amended cfgC fsEmpty ([], []) pZ1
      true "no such file or directory" rfl).2 (by decide)⟩

/-- C3: when the stored object opens and reads successfully, the verifier
compares the digest of the full content with the declared content hash: a
match classifies the object OK (nothing appended, nothing printed), and a
mismatch classifies it corruptObject, prints a diagnostic, and appends the
content hash to the corrupt set. -/
theorem C3_hash_correspondence (cfg : Config) (fs : FS) (acc : List String × List String)
    (p : WrappedPointer) (d : List Nat)
    (h : osOpen fs (cfg.objectPathname p.oid) = .opened (.ok d)) :
    (cfg.sha256hex d = p.oid → fsckObjStep cfg fs acc (.ptr p) = .ok acc) ∧
    (cfg.sha256hex d ≠ p.oid → fsckObjStep cfg fs acc (.ptr p) =
      .ok (acc.1 ++ [p.oid],
        acc.2 ++ ["objects: corruptObject: " ++ p.name ++ " (" ++ p.oid ++ ") is corrupt"])) := by
  constructor
  · intro hh
    have hfp : fsckPointer cfg fs p.name p.oid p.size = (true, none, []) := by
      simp only [fsckPointer, h]
      rw [if_pos hh]
    rw [fsckObjStep_ptr cfg fs acc p true none [] hfp]
    simp
  · intro hh
    have hfp : fsckPointer cfg fs p.name p.oid p.size =
        (false, none,
          ["objects: corruptObject: " ++ p.name ++ " (" ++ p.oid ++ ") is corrupt"]) := by
      simp only [fsckPointer, h]
      rw [if_neg hh]
    rw [fsckObjStep_ptr cfg fs acc p false none _ hfp]
    simp

/-- C3, witness: in a concrete store, the intact object a is classified OK
and the bit-flipped object b (digest x instead of b) is classified
corruptObject and added to the corrupt set. -/
theorem C3_hash_correspondence_witness :
    fsckObjStep cfgC fsStore ([], []) (.ptr pA) = .ok ([], []) ∧
    fsckObjStep cfgC fsStore ([], []) (.ptr pB) =
      .ok (["b"], ["objects: corruptObject: g (b) is corrupt"]) :=
  ⟨(C3_hash_correspondence cfgC fsStore ([], []) pA [1] rfl).1 rfl,
   (C3_hash_correspondence cfgC fsStore ([], []) pB [2] rfl).2 (by decide)⟩

/-- C4: an I/O error while reading a successfully opened object is fatal to
the entire run: fsckPointer surfaces the error, the callback panics instead
of classifying the object, and the whole object pass aborts with that panic
no matter where in the feed the record sits. -/
theorem C4_read_error_fatal (cfg : Config) (env : ScanEnv) (fs : FS)
    (p : WrappedPointer) (m : String) (acc : List String × List String)
    (pre post : List BlobScanItem) (start end_ : String) (useIndex : Bool)
    (h : osOpen fs (cfg.objectPathname p.oid) = .opened (.ioError m)) :
    fsckPointer cfg fs p.name p.oid p.size = (false, some m, []) ∧
    fsckObjStep cfg fs acc (.ptr p) = .error (.panicErr m) ∧
    ((if start == "" then env.scanRef end_ else env.scanRefRange start end_).1 =
        pre ++ .ptr p :: post →
      runBlobFeed cfg fs ([], []) pre = .ok acc →
      doFsckObjects cfg env fs start end_ useIndex = .error (.panicErr m)) := by
  have hfp : fsckPointer cfg fs p.name p.oid p.size = (false, some m, []) := by
    simp only [fsckPointer, h]
  have hstep : fsckObjStep cfg fs acc (.ptr p) = .error (.panicErr m) := by
    rw [fsckObjStep_ptr cfg fs acc p false (some m) [] hfp]
  refine ⟨hfp, hstep, ?_⟩
  intro hfeed hpre
  simp only [doFsckObjects, hfeed, runBlobFeed_append, hpre]
  simp only [runBlobFeed, hstep]

/-- C4, witness: a concrete run whose single record reads with an I/O error
aborts the whole object pass with a panic. -/
theorem C4_read_error_fatal_witness :
    doFsckObjects cfgC envC4 fsReadErr "" "r" false = .error (.panicErr "input output error") :=
  (C4_read_error_fatal cfgC envC4 fsReadErr pA "input output error" ([], [])
    [] [] "" "r" false rfl).2.2 rfl rfl

/-- C5: the pointer canonicality checker classifies a pointer record with
isCanonical false as nonCanonicalPointer with a message built from its
content hash and blob hash, appends it and prints it immediately; classifies
a PointerScanError as unexpectedGitObject with a message built from its tree
hash and path, appends it and prints it immediately; and panics on any other
scan error. -/
theorem C5_pointer_classification (acc : List corruptPointer × List String)
    (p : WrappedPointer) (t pa m : String) :
    (p.canonical = false →
      fsckPtrStep acc (.ptr p) =
        .ok (acc.1 ++ [nonCanonicalCp p],
          acc.2 ++ ["pointer: " ++ cpString (nonCanonicalCp p)]) ∧
      (nonCanonicalCp p).kind = "nonCanonicalPointer" ∧
      (nonCanonicalCp p).message =
        "Pointer for " ++ p.oid ++ " (blob " ++ p.sha1 ++ ") was not canonical") ∧
    (p.canonical = true → fsckPtrStep acc (.ptr p) = .ok acc) ∧
    (fsckPtrStep acc (.pointerScanError t pa) =
      .ok (acc.1 ++ [unexpectedGitObjectCp t pa],
        acc.2 ++ ["pointer: " ++ cpString (unexpectedGitObjectCp t pa)]) ∧
      (unexpectedGitObjectCp t pa).kind = "unexpectedGitObject" ∧
      (unexpectedGitObjectCp t pa).message =
        "\"" ++ pa ++ "\" (treeish " ++ t ++ ") should have been a pointer but was not") ∧
    fsckPtrStep acc (.scanError m) = .error (.panicErr m) := by
  refine ⟨?_, ?_, ⟨rfl, rfl, rfl⟩, rfl⟩
  · intro hc
    exact ⟨by simp [fsckPtrStep, hc], rfl, rfl⟩
  · intro hc
    simp [fsckPtrStep, hc]

/-- C5, witness: a concrete non-canonical record is appended and printed,
and a concrete scan error panics. -/
theorem C5_pointer_classification_witness :
    fsckPtrStep ([], []) (.ptr pNC) =
      .ok ([nonCanonicalCp pNC], ["pointer: " ++ cpString (nonCanonicalCp pNC)]) ∧
    fsckPtrStep ([], []) (.pointerScanError "t9" "data.bin") =
      .ok ([unexpectedGitObjectCp "t9" "data.bin"],
        ["pointer: " ++ cpString (unexpectedGitObjectCp "t9" "data.bin")]) ∧
    fsckPtrStep ([], []) (.scanError "boom") = .error (.panicErr "boom") :=
  ⟨((C5_pointer_classification ([], []) pNC "t9" "data.bin" "boom").1 rfl).1,
   ((C5_pointer_classification ([], []) pNC "t9" "data.bin" "boom").2.2.1).1,
   (C5_pointer_classification ([], []) pNC "t9" "data.bin" "boom").2.2.2⟩

end GitLfsFsck

namespace GitLfsFsck

/-- C8: the scan-range resolver maps zero arguments to useIndex true with
end the resolved current ref and start empty; maps one argument through a
first-occurrence split on two dots and ref resolution, assigning start and
end when two endpoints come back and end only when one does; and any failed
resolution aborts the whole command with a surfaced error before any
verification or filesystem access happens. -/
theorem C8_scan_range_resolver (env : ScanEnv) :
    (∀ ref, env.currentRef = .ok ref →
      resolveScanRange env [] = .ok { useIndex := true, start := "", end_ := ref.sha }) ∧
    (∀ e, env.currentRef = .error e →
      resolveScanRange env [] = .error (.exitWithError e) ∧
      ∀ (cfg : Config) (fs : FS) (flags : Flags),
        fsckCommand cfg env fs flags [] = .error (.exitWithError e)) ∧
    (∀ a r0 r1, env.resolveRefs (splitN2 a "..") = .ok [r0, r1] →
      resolveScanRange env [a] = .ok { useIndex := false, start := r0.sha, end_ := r1.sha }) ∧
    (∀ a r0, env.resolveRefs (splitN2 a "..") = .ok [r0] →
      resolveScanRange env [a] = .ok { useIndex := false, start := "", end_ := r0.sha }) ∧
    (∀ a e, env.resolveRefs (splitN2 a "..") = .error e →
      resolveScanRange env [a] = .error (.exitWithError e) ∧
      ∀ (cfg : Config) (fs : FS) (flags : Flags),
        fsckCommand cfg env fs flags [a] = .error (.exitWithError e)) := by
  refine ⟨?_, ?_, ?_, ?_, ?_⟩
  · intro ref h
    simp only [resolveScanRange, h]
  · intro e h
    constructor
    · simp only [resolveScanRange, h]
    · intro cfg fs flags
      simp only [fsckCommand, resolveScanRange, h]
  · intro a r0 r1 h
    simp only [resolveScanRange, h]
  · intro a r0 h
    simp only [resolveScanRange, h]
  · intro a e h
    constructor
    · simp only [resolveScanRange, h]
    · intro cfg fs flags
      simp only [fsckCommand, resolveScanRange, h]

/-- C8, witness: concrete resolutions of zero arguments, a two-dot range, a
single ref, and a failing resolution. -/
theorem C8_scan_range_resolver_witness :
    resolveScanRange envClean [] = .ok { useIndex := true, start := "", end_ := "r" } ∧
    resolveScanRange envClean ["x..y"] = .ok { useIndex := false, start := "x", end_ := "y" } ∧
    resolveScanRange envClean ["x"] = .ok { useIndex := false, start := "", end_ := "x" } ∧
    fsckCommand cfgC envErr fsEmpty flagsDefault [] = .error (.exitWithError "bad ref") :=
  ⟨(C8_scan_range_resolver envClean).1 { sha := "r" } rfl,
   (C8_scan_range_resolver envClean).2.2.1 "x..y" { sha := "x" } { sha := "y" } rfl,
   (C8_scan_range_resolver envClean).2.2.2.1 "x" { sha := "x" } rfl,
   ((C8_scan_range_resolver envErr).2.1 "bad ref" rfl).2 cfgC fsEmpty flagsDefault⟩

/-- C10: the pointer canonicality pass never examines the working index: its
result is determined by the by-tree ref and range feeds alone, whatever the
index holds; and the object pass, which is the only pass that reads the
index, ignores the canonicality flag of every record it sees, so a
non-canonical pointer present only in the index produces no finding. -/
theorem C10_index_never_tree_scanned (env env2 : ScanEnv) (start end_ : String)
    (cfg : Config) (fs : FS) (acc : List String × List String)
    (p : WrappedPointer) (b : Bool)
    (h1 : env.scanRefByTree = env2.scanRefByTree)
    (h2 : env.scanRefRangeByTree = env2.scanRefRangeByTree) :
    doFsckPointers env start end_ = doFsckPointers env2 start end_ ∧
    fsckObjStep cfg fs acc (.ptr { p with canonical := b }) =
      fsckObjStep cfg fs acc (.ptr p) := by
  constructor
  · simp only [doFsckPointers, h1, h2]
  · rfl

/-- C10, witness: an environment whose index alone holds a non-canonical
pointer produces exactly the pointer findings of the clean environment,
namely none, and flipping the canonicality flag of a record does not change
the object pass. -/
theorem C10_index_never_tree_scanned_witness :
    doFsckPointers envIdxNC "" "r" = doFsckPointers envClean "" "r" ∧
    doFsckPointers envIdxNC "" "r" = .ok ([], []) ∧
    fsckObjStep cfgC fsStore ([], []) (.ptr { pA with canonical := false }) =
      fsckObjStep cfgC fsStore ([], []) (.ptr pA) :=
  ⟨(C10_index_never_tree_scanned envIdxNC envClean "" "r" cfgC fsStore ([], [])
      pA false rfl rfl).1,
   rfl,
   (C10_index_never_tree_scanned envIdxNC envClean "" "r" cfgC fsStore ([], [])
      pA false rfl rfl).2⟩

end GitLfsFsck

namespace GitLfsFsck

/-- C1: a completed run is OK exactly when every requested pass produced
zero findings; when OK the command prints the single success line and exits
with code 0, and when any finding exists every completed run exits with
code 1 (with or without relocation). -/
theorem C1_exit_code_contract (cfg : Config) (env : ScanEnv) (fs : FS) (flags : Flags)
    (args : List String) (sr : ScanRange) (oids out1 : List String)
    (ptrs : List corruptPointer) (out2 : List String)
    (hsr : resolveScanRange env args = .ok sr)
    (hobj : (if effObjects flags then doFsckObjects cfg env fs sr.start sr.end_ sr.useIndex
             else .ok ([], [])) = .ok (oids, out1))
    (hptr : (if effPointers flags then doFsckPointers env sr.start sr.end_
             else .ok ([], [])) = .ok (ptrs, out2)) :
    (oids = [] ∧ ptrs = [] →
      fsckCommand cfg env fs flags args =
        .ok { exitCode := 0, printed := ["Git LFS fsck OK"], fs := fs }) ∧
    (¬(oids = [] ∧ ptrs = []) →
      ∀ r, fsckCommand cfg env fs flags args = .ok r → r.exitCode = 1) := by
  constructor
  · rintro ⟨h1, h2⟩
    subst h1
    subst h2
    have hout1 : out1 = [] := by
      cases hef : effObjects flags
      · rw [if_neg (by simp [hef])] at hobj
        injection hobj with hobj
        injection hobj with ho1 ho2
        exact ho2.symm
      · rw [if_pos hef] at hobj
        exact doFsckObjects_empty_out cfg env fs sr.start sr.end_ sr.useIndex out1 hobj
    have hout2 : out2 = [] := by
      cases hef : effPointers flags
      · rw [if_neg (by simp [hef])] at hptr
        injection hptr with hptr
        injection hptr with ho1 ho2
        exact ho2.symm
      · rw [if_pos hef] at hptr
        exact doFsckPointers_empty_out env sr.start sr.end_ out2 hptr
    subst hout1
    subst hout2
    simp [fsckCommand, hsr, hobj, hptr]
  · intro hne r hr
    have hok : ((!effObjects flags || oids.isEmpty) &&
        (!effPointers flags || ptrs.isEmpty)) = false := by
      by_cases ho : oids = []
      · have hp : ptrs ≠ [] := fun hp => hne ⟨ho, hp⟩
        have hefp : effPointers flags = true := by
          cases hef : effPointers flags
          · rw [if_neg (by simp [hef])] at hptr
            injection hptr with hptr
            injection hptr with h1 h2
            exact absurd h1.symm hp
          · rfl
        have : ptrs.isEmpty = false := by
          cases hpe : ptrs.isEmpty
          · rfl
          · exact absurd (List.isEmpty_iff.mp hpe) hp
        simp [hefp, this]
      · have hefo : effObjects flags = true := by
          cases hef : effObjects flags
          · rw [if_neg (by simp [hef])] at hobj
            injection hobj with hobj
            injection hobj with h1 h2
            exact absurd h1.symm ho
          · rfl
        have : oids.isEmpty = false := by
          cases hoe : oids.isEmpty
          · rfl
          · exact absurd (List.isEmpty_iff.mp hoe) ho
        simp [hefo, this]
    simp only [fsckCommand, hsr, hobj, hptr, hok, Bool.false_eq_true, if_false] at hr
    by_cases hd : (flags.dryRun || oids.isEmpty) = true
    · rw [if_pos hd] at hr
      injection hr with hr
      rw [← hr]
    · rw [if_neg hd] at hr
      cases hrr : runRenames cfg (cfg.lfsStorageDir ++ "/bad")
          (mkdirAll fs (cfg.lfsStorageDir ++ "/bad")) oids with
      | error e => rw [hrr] at hr; simp at hr
      | ok fs2 =>
        rw [hrr] at hr
        injection hr with hr
        rw [← hr]

/-- C1, witness: a clean concrete run prints the single success line and
exits 0. -/
theorem C1_exit_code_contract_witness :
    fsckCommand cfgC envClean fsEmpty flagsDefault [] =
      .ok { exitCode := 0, printed := ["Git LFS fsck OK"], fs := fsEmpty } :=
  (C1_exit_code_contract cfgC envClean fsEmpty flagsDefault []
    { useIndex := true, start := "", end_ := "r" } [] [] [] []
    rfl rfl rfl).1 ⟨rfl, rfl⟩

end GitLfsFsck

namespace GitLfsFsck

/-- Helper: when some pass produced findings, the aggregated ok flag of
fsckCommand is false. -/
theorem okFlag_false (cfg : Config) (env : ScanEnv) (fs : FS) (flags : Flags)
    (sr : ScanRange) (oids out1 : List String)
    (ptrs : List corruptPointer) (out2 : List String)
    (hobj : (if effObjects flags then doFsckObjects cfg env fs sr.start sr.end_ sr.useIndex
             else .ok ([], [])) = .ok (oids, out1))
    (hptr : (if effPointers flags then doFsckPointers env sr.start sr.end_
             else .ok ([], [])) = .ok (ptrs, out2))
    (hne : ¬(oids = [] ∧ ptrs = [])) :
    ((!effObjects flags || oids.isEmpty) && (!effPointers flags || ptrs.isEmpty)) = false := by
  by_cases ho : oids = []
  · have hp : ptrs ≠ [] := fun hp => hne ⟨ho, hp⟩
    have hefp : effPointers flags = true := by
      cases hef : effPointers flags
      · rw [if_neg (by simp [hef])] at hptr
        injection hptr with hptr
        injection hptr with h1 h2
        exact absurd h1.symm hp
      · rfl
    have : ptrs.isEmpty = false := by
      cases hpe : ptrs.isEmpty
      · rfl
      · exact absurd (List.isEmpty_iff.mp hpe) hp
    simp [hefp, this]
  · have hefo : effObjects flags = true := by
      cases hef : effObjects flags
      · rw [if_neg (by simp [hef])] at hobj
        injection hobj with hobj
        injection hobj with h1 h2
        exact absurd h1.symm ho
      · rfl
    have : oids.isEmpty = false := by
      cases hoe : oids.isEmpty
      · rfl
      · exact absurd (List.isEmpty_iff.mp hoe) ho
    simp [hefo, this]

/-- C7: when the run is not OK but dry-run is set or there are zero corrupt
objects, the command performs no filesystem mutation at all (files and
directories are exactly the input state) and exits with code 1. -/
theorem C7_dry_run_no_mutation (cfg : Config) (env : ScanEnv) (fs : FS) (flags : Flags)
    (args : List String) (sr : ScanRange) (oids out1 : List String)
    (ptrs : List corruptPointer) (out2 : List String)
    (hsr : resolveScanRange env args = .ok sr)
    (hobj : (if effObjects flags then doFsckObjects cfg env fs sr.start sr.end_ sr.useIndex
             else .ok ([], [])) = .ok (oids, out1))
    (hptr : (if effPointers flags then doFsckPointers env sr.start sr.end_
             else .ok ([], [])) = .ok (ptrs, out2))
    (hne : ¬(oids = [] ∧ ptrs = []))
    (hskip : flags.dryRun = true ∨ oids = []) :
    fsckCommand cfg env fs flags args =
      .ok { exitCode := 1, printed := out1 ++ out2, fs := fs } := by
  have hok := okFlag_false cfg env fs flags sr oids out1 ptrs out2 hobj hptr hne
  simp only [fsckCommand, hsr, hobj, hptr, hok, Bool.false_eq_true, if_false]
  have hd : (flags.dryRun || oids.isEmpty) = true := by
    rcases hskip with h | h
    · simp [h]
    · simp [h]
  rw [if_pos hd]

/-- C7, witness: a concrete dry run over a store with a corrupt object
reports it, exits 1, and leaves the filesystem untouched. -/
theorem C7_dry_run_no_mutation_witness :
    fsckCommand cfgC envB fsStore flagsDry [] =
      .ok { exitCode := 1, printed := ["objects: corruptObject: g (b) is corrupt"],
            fs := fsStore } :=
  C7_dry_run_no_mutation cfgC envB fsStore flagsDry []
    { useIndex := true, start := "", end_ := "r" }
    ["b"] ["objects: corruptObject: g (b) is corrupt"] [] []
    rfl rfl rfl (by simp) (Or.inl rfl)

/-- C6: when the run is not OK, dry-run is off and corrupt objects exist,
the command creates the quarantine directory, renames each corrupt oid from
its store path to quarantineDir slash oid, aborts on any rename failure,
and on success exits 1 with every one of the N distinct corrupt files
present in quarantine and absent from its original path. -/
theorem C6_quarantine (cfg : Config) (env : ScanEnv) (fs : FS) (flags : Flags)
    (args : List String) (sr : ScanRange) (oids out1 : List String)
    (ptrs : List corruptPointer) (out2 : List String)
    (hsr : resolveScanRange env args = .ok sr)
    (hobj : (if effObjects flags then doFsckObjects cfg env fs sr.start sr.end_ sr.useIndex
             else .ok ([], [])) = .ok (oids, out1))
    (hptr : (if effPointers flags then doFsckPointers env sr.start sr.end_
             else .ok ([], [])) = .ok (ptrs, out2))
    (hdry : flags.dryRun = false)
    (hne : oids ≠ []) :
    (∀ e, runRenames cfg (cfg.lfsStorageDir ++ "/bad")
        (mkdirAll fs (cfg.lfsStorageDir ++ "/bad")) oids = .error e →
      fsckCommand cfg env fs flags args = .error e) ∧
    (∀ fs2, runRenames cfg (cfg.lfsStorageDir ++ "/bad")
        (mkdirAll fs (cfg.lfsStorageDir ++ "/bad")) oids = .ok fs2 →
      fsckCommand cfg env fs flags args =
        .ok { exitCode := 1,
              printed := out1 ++ out2 ++
                ["objects: repair: moving corrupt objects to " ++ (cfg.lfsStorageDir ++ "/bad")],
              fs := fs2 } ∧
      (cfg.lfsStorageDir ++ "/bad") ∈ fs2.dirs ∧
      (oids.Nodup →
        (∀ o ∈ oids, ∀ o2 ∈ oids, cfg.objectPathname o = cfg.objectPathname o2 → o = o2) →
        (∀ o ∈ oids, ∀ o2 ∈ oids,
          cfg.lfsStorageDir ++ "/bad" ++ "/" ++ o ≠ cfg.objectPathname o2) →
        ∀ o ∈ oids, lookupFile fs2 (cfg.objectPathname o) = none ∧
          (lookupFile fs2 (cfg.lfsStorageDir ++ "/bad" ++ "/" ++ o)).isSome = true)) := by
  have hok := okFlag_false cfg env fs flags sr oids out1 ptrs out2 hobj hptr
    (fun hc => hne hc.1)
  have hoe : oids.isEmpty = false := by
    cases hoi : oids.isEmpty
    · rfl
    · exact absurd (List.isEmpty_iff.mp hoi) hne
  have hcmd : fsckCommand cfg env fs flags args =
      match runRenames cfg (cfg.lfsStorageDir ++ "/bad")
          (mkdirAll fs (cfg.lfsStorageDir ++ "/bad")) oids with
      | .error e => .error e
      | .ok fs2 =>
        .ok { exitCode := 1,
              printed := out1 ++ out2 ++
                ["objects: repair: moving corrupt objects to " ++ (cfg.lfsStorageDir ++ "/bad")],
              fs := fs2 } := by
    simp only [fsckCommand, hsr, hobj, hptr, hok, Bool.false_eq_true, if_false]
    rw [if_neg (by simp [hdry, hoe])]
  constructor
  · intro e h
    rw [hcmd, h]
  · intro fs2 h
    refine ⟨by rw [hcmd, h], ?_, ?_⟩
    · have hdirs : fs2.dirs = (mkdirAll fs (cfg.lfsStorageDir ++ "/bad")).dirs :=
        runRenames_dirs cfg (cfg.lfsStorageDir ++ "/bad") oids _ fs2 h
      rw [hdirs]
      exact mem_dirs_mkdirAll fs (cfg.lfsStorageDir ++ "/bad")
    · intro hnd hinj hdisj o ho
      exact runRenames_complete cfg (cfg.lfsStorageDir ++ "/bad") oids _ fs2
        hnd hinj hdisj h o ho

/-- C6, witness: a concrete run with the single corrupt object b relocates
it into lfs/bad, exits 1, and leaves nothing at its original path. -/
theorem C6_quarantine_witness :
    fsckCommand cfgC envB fsStore flagsDefault [] =
      .ok { exitCode := 1,
            printed := ["objects: corruptObject: g (b) is corrupt",
              "objects: repair: moving corrupt objects to lfs/bad"],
            fs := fs2C } ∧
    "lfs/bad" ∈ fs2C.dirs ∧
    lookupFile fs2C (cfgC.objectPathname "b") = none ∧
    (lookupFile fs2C ("lfs" ++ "/bad" ++ "/" ++ "b")).isSome = true := by
  have T := C6_quarantine cfgC envB fsStore flagsDefault []
    { useIndex := true, start := "", end_ := "r" }
    ["b"] ["objects: corruptObject: g (b) is corrupt"] [] []
    rfl rfl rfl rfl (by simp)
  have T2 := T.2 fs2C rfl
  have comp := T2.2.2 (by decide) (by decide) (by decide) "b" (by decide)
  exact ⟨T2.1, T2.2.1, comp.1, comp.2⟩

end GitLfsFsck

namespace GitLfsFsck

/-- C9, counterexample: the claim says the aggregated corrupt-content-hash
sequence contains each hash at most once even when the combined feeds yield
multiple records with the same corrupt hash.  The object pass performs no
deduplication: a feed delivering the same corrupt record twice produces the
hash twice. -/
theorem C9_counterexample :
    doFsckObjects cfgC envDup fsStore "" "r" false =
      .ok (["b", "b"],
        ["objects: corruptObject: g (b) is corrupt",
         "objects: corruptObject: g (b) is corrupt"]) ∧
    ¬(["b", "b"] : List String).Nodup :=
  ⟨rfl, by decide⟩

/-- C9 (amended): the corrupt-hash sequence is an in-order selection of the
oids delivered by the combined feeds (ref or range scan followed by the
index scan), so it contains each content hash at most once provided the
combined feeds deliver each content hash at most once; the code itself
performs no deduplication. -/
theorem C9_nodup_amended (cfg : Config) (env : ScanEnv) (fs : FS)
    (start end_ : String) (useIndex : Bool) (oids out : List String)
    (hfeed : (recOids (if start == "" then env.scanRef end_
        else env.scanRefRange start end_).1 ++
      (if useIndex then recOids (env.scanIndex "HEAD").1 else [])).Nodup)
    (h : doFsckObjects cfg env fs start end_ useIndex = .ok (oids, out)) :
    oids.Sublist
      (recOids (if start == "" then env.scanRef end_
          else env.scanRefRange start end_).1 ++
        (if useIndex then recOids (env.scanIndex "HEAD").1 else [])) ∧
    oids.Nodup := by
  have hsub := (doFsckObjects_decomp cfg env fs start end_ useIndex oids out h).1
  exact ⟨hsub, hfeed.sublist hsub⟩

/-- C9 (amended), witness: a concrete run whose feed delivers the corrupt
record once produces the corrupt hash exactly once. -/
theorem C9_nodup_amended_witness :
    doFsckObjects cfgC envB fsStore "" "r" false =
      .ok (["b"], ["objects: corruptObject: g (b) is corrupt"]) ∧
    (["b"] : List String).Sublist (recOids [.ptr pB] ++ []) ∧
    (["b"] : List String).Nodup :=
  ⟨rfl,
   (C9_nodup_amended cfgC envB fsStore "" "r" false ["b"]
     ["objects: corruptObject: g (b) is corrupt"] (by decide) rfl).1,
   (C9_nodup_amended cfgC envB fsStore "" "r" false ["b"]
     ["objects: corruptObject: g (b) is corrupt"] (by decide) rfl).2⟩

end GitLfsFsck
